import Mathlib

/-!
Verification of the meeting-summarizer generation pipeline
(`functions/[[path]].js` and the Express server), as a shallow embedding:
JavaScript values become the inductive `JVal`, the response-normalization
string pipeline is modelled character-list by character-list, provider
calls become explicit outcome parameters plus a call log, and the
recursive ASR retry is modelled fuel-indexed.
-/

namespace MeetingSummarizer

/-- Model of a JavaScript JSON value (the values `JSON.parse` can produce).
Numbers are restricted to integers, which covers every value the claims
exercise. -/
inductive JVal where
  | null
  | bool (b : Bool)
  | num (n : Int)
  | str (s : String)
  | arr (elems : List JVal)
  | obj (fields : List (String × JVal))
deriving Repr

/-- The left brace character, written via its code point. -/
def lbrace : Char := Char.ofNat 123

/-- The right brace character, written via its code point. -/
def rbrace : Char := Char.ofNat 125

/-- JavaScript truthiness of a JSON value: `false`, `0`, `""` and `null`
are falsy; every array and object (including `[]`) is truthy. -/
def jsTruthy : JVal → Bool
  | .null => false
  | .bool b => b
  | .num n => n != 0
  | .str s => !s.isEmpty
  | .arr _ => true
  | .obj _ => true

/-- Last-binding-wins association lookup, matching how `JSON.parse`
resolves duplicate keys in an object literal. -/
def lookupLast (fields : List (String × JVal)) (k : String) : Option JVal :=
  fields.foldl (fun acc kv => if kv.1 = k then some kv.2 else acc) none

/-- JavaScript property access `v.k`: `undefined` (here `none`) on
non-objects and absent keys.  (`null.k` throws in JS; the pipeline never
relies on that corner and we model it as `undefined`.) -/
def JVal.getField : JVal → String → Option JVal
  | .obj fs, k => lookupLast fs k
  | _, _ => none

/-- Truthiness of a possibly-`undefined` value. -/
def jsTruthyOpt : Option JVal → Bool
  | none => false
  | some v => jsTruthy v

/-- `Array.isArray` on a possibly-`undefined` value. -/
def isArrOpt : Option JVal → Bool
  | some (.arr _) => true
  | _ => false

/-! ## Character-list utilities modelling the JS string operations -/

/-- Whitespace stripped by `String.prototype.trim` (ASCII fragment). -/
def isTrimWs (c : Char) : Bool :=
  c = ' ' || c = '\n' || c = '\t' || c = '\r' || c = Char.ofNat 11 || c = Char.ofNat 12

/-- `text.trim()` on a character list. -/
def jsTrim (cs : List Char) : List Char :=
  ((cs.dropWhile isTrimWs).reverse.dropWhile isTrimWs).reverse

/-- Index of the first occurrence of a character, if any. -/
def firstIdxOf (target : Char) : List Char → Option Nat
  | [] => none
  | c :: cs => if c = target then some 0 else (firstIdxOf target cs).map (· + 1)

/-- Index of the last occurrence of a character, if any. -/
def lastIdxOf (target : Char) (cs : List Char) : Option Nat :=
  (firstIdxOf target cs.reverse).map (fun i => cs.length - 1 - i)

/-- The fence markers used by the source's cleanup regexes. -/
def markerJson : List Char := "```json".data

/-- The plain fence marker. -/
def markerPlain : List Char := "```".data

/-- Model of `str.replace(/MARKER\n?/g, '')`: remove every occurrence of
the marker together with one optional following newline, scanning left to
right (fuelled; the fuel is always instantiated with the list length,
which suffices because each step consumes at least one character). -/
def removeMarkerAll (m : List Char) : Nat → List Char → List Char
  | 0, cs => cs
  | _ + 1, [] => []
  | fuel + 1, c :: rest =>
    if m.isPrefixOf (c :: rest) then
      match (c :: rest).drop m.length with
      | '\n' :: r2 => removeMarkerAll m fuel r2
      | r2 => removeMarkerAll m fuel r2
    else c :: removeMarkerAll m fuel rest

/-- The fence-stripping step applied to the (already trimmed) text:
if it starts with ` ```json ` strip all ` ```json ` markers then all
` ``` ` markers; if it starts with a bare ` ``` ` strip those; otherwise
leave the text unchanged. -/
def fenceStrip (cs : List Char) : List Char :=
  if markerJson.isPrefixOf cs then
    let cs1 := removeMarkerAll markerJson cs.length cs
    removeMarkerAll markerPlain cs1.length cs1
  else if markerPlain.isPrefixOf cs then
    removeMarkerAll markerPlain cs.length cs
  else cs

/-- Model of `jsonText.match(/\x7b[\s\S]*\x7d/)` followed by
`jsonText = jsonMatch[0]`: greedily take the substring from the first
`\x7b` through the last `\x7d` when that span is non-degenerate,
otherwise leave the text unchanged (the regex then has no match). -/
def braceExtract (cs : List Char) : List Char :=
  match firstIdxOf lbrace cs, lastIdxOf rbrace cs with
  | some i, some j => if i < j then (cs.drop i).take (j - i + 1) else cs
  | _, _ => cs

/-- Cleanup pipeline of `generateWithHuggingFace`: trim, strip fences,
then brace-extract. -/
def hfCleanup (text : String) : List Char :=
  braceExtract (fenceStrip (jsTrim text.data))

/-- Cleanup pipeline of `generateWithGoogle`: trim and strip fences only
— the source's Gemini path has no brace-extraction step. -/
def googleCleanup (text : String) : List Char :=
  fenceStrip (jsTrim text.data)

/-! ## JSON parsing

Model of the `JSON.parse` builtin, restricted to the grammar the pipeline
exercises: `null`, booleans, integer numbers, strings with the common
single-character escapes, arrays and objects, with JSON whitespace.  The
recursion is fuelled; `jsonParse` instantiates the fuel generously from
the input length. -/

/-- JSON insignificant whitespace. -/
def isJsonWs (c : Char) : Bool :=
  c = ' ' || c = '\n' || c = '\t' || c = '\r'

/-- Skip JSON whitespace. -/
def skipWs (cs : List Char) : List Char := cs.dropWhile isJsonWs

/-- Numeric value of a decimal digit character. -/
def digitVal (c : Char) : Nat := c.toNat - '0'.toNat

/-- Parse a non-empty run of decimal digits into a natural number. -/
def parseDigits (cs : List Char) : Option (Nat × List Char) :=
  let ds := cs.takeWhile Char.isDigit
  if ds.isEmpty then none
  else some (ds.foldl (fun a c => a * 10 + digitVal c) 0, cs.dropWhile Char.isDigit)

/-- Decode a single-character string escape. -/
def escChar : Char → Option Char
  | 'n' => some '\n'
  | 't' => some '\t'
  | 'r' => some '\r'
  | 'b' => some (Char.ofNat 8)
  | 'f' => some (Char.ofNat 12)
  | '"' => some '"'
  | '\\' => some '\\'
  | '/' => some '/'
  | _ => none

/-- Parse the remainder of a JSON string after the opening quote,
returning the decoded characters and the suffix after the closing
quote. -/
def parseStringRest : Nat → List Char → Option (List Char × List Char)
  | 0, _ => none
  | _ + 1, [] => none
  | fuel + 1, c :: rest =>
    if c = '"' then some ([], rest)
    else if c = '\\' then
      match rest with
      | [] => none
      | e :: rest2 =>
        match escChar e with
        | some ce => (parseStringRest fuel rest2).map (fun p => (ce :: p.1, p.2))
        | none => none
    else (parseStringRest fuel rest).map (fun p => (c :: p.1, p.2))

mutual

/-- Parse one JSON value (fuelled recursive descent). -/
def parseValue : Nat → List Char → Option (JVal × List Char)
  | 0, _ => none
  | fuel + 1, cs0 =>
    let cs := skipWs cs0
    match cs with
    | [] => none
    | c :: rest =>
      if c = '"' then
        (parseStringRest fuel rest).map (fun p => (.str (String.mk p.1), p.2))
      else if c = '-' then
        (parseDigits rest).map (fun p => (.num (-(p.1 : Int)), p.2))
      else if c.isDigit then
        (parseDigits cs).map (fun p => (.num (p.1 : Int), p.2))
      else if c = '[' then
        match skipWs rest with
        | ']' :: rest2 => some (.arr [], rest2)
        | cs2 => (parseElems fuel cs2).map (fun p => (.arr p.1, p.2))
      else if c = lbrace then
        match skipWs rest with
        | c2 :: rest2 =>
          if c2 = rbrace then some (.obj [], rest2)
          else (parseMembers fuel (c2 :: rest2)).map (fun p => (.obj p.1, p.2))
        | [] => none
      else if "true".data.isPrefixOf cs then some (.bool true, cs.drop 4)
      else if "false".data.isPrefixOf cs then some (.bool false, cs.drop 5)
      else if "null".data.isPrefixOf cs then some (.null, cs.drop 4)
      else none

/-- Parse the comma-separated elements of a non-empty array, consuming
the closing bracket. -/
def parseElems : Nat → List Char → Option (List JVal × List Char)
  | 0, _ => none
  | fuel + 1, cs =>
    match parseValue fuel cs with
    | none => none
    | some (v, rest) =>
      match skipWs rest with
      | ',' :: rest2 => (parseElems fuel rest2).map (fun p => (v :: p.1, p.2))
      | ']' :: rest2 => some ([v], rest2)
      | _ => none

/-- Parse the comma-separated members of a non-empty object, consuming
the closing brace. -/
def parseMembers : Nat → List Char → Option (List (String × JVal) × List Char)
  | 0, _ => none
  | fuel + 1, cs =>
    match skipWs cs with
    | '"' :: rest =>
      match parseStringRest fuel rest with
      | none => none
      | some (key, rest2) =>
        match skipWs rest2 with
        | ':' :: rest3 =>
          match parseValue fuel rest3 with
          | none => none
          | some (v, rest4) =>
            match skipWs rest4 with
            | ',' :: rest5 =>
              (parseMembers fuel rest5).map
                (fun p => ((String.mk key, v) :: p.1, p.2))
            | c :: rest5 =>
              if c = rbrace then some ([(String.mk key, v)], rest5) else none
            | [] => none
        | _ => none
    | _ => none

end

/-- Model of `JSON.parse`: parse one value and require only whitespace to
remain; any leftover non-whitespace is a `SyntaxError` (here `none`). -/
def jsonParse (s : String) : Option JVal :=
  match parseValue (2 * s.data.length + 4) s.data with
  | some (v, rest) => if (skipWs rest).isEmpty then some v else none
  | none => none

/-! ## Response normalization and validation -/

/-- The shape check performed on a parsed provider response, from
`if (!parsed.summary || !parsed.slides || !Array.isArray(parsed.slides))`:
accepted iff `summary` is truthy, `slides` is truthy and `slides` is an
array. -/
def validShape (v : JVal) : Bool :=
  jsTruthyOpt (v.getField "summary") && jsTruthyOpt (v.getField "slides")
    && isArrOpt (v.getField "slides")

/-- Errors thrown inside a provider's generate function. -/
inductive GenError where
  | config
  | transport (msg : String)
  | parseFail
  | badShape (msg : String)
deriving Repr, DecidableEq

/-- Model of the V8 `SyntaxError` message produced by a failing
`JSON.parse` — its text always contains the token `JSON`. -/
def jsonParseErrMsg : String := "Unexpected token in JSON at position 0"

/-- The `error.message` the catch block observes for each error kind. -/
def errMessage : GenError → String
  | .config => "No AI API configured. Please add HUGGINGFACE_API_KEY or GEMINI_API_KEY"
  | .transport m => m
  | .parseFail => jsonParseErrMsg
  | .badShape m => m

/-- Normalization tail of `generateWithHuggingFace`: cleanup, `JSON.parse`
(a failure throws a parse error), then the shape check (a failure throws
`Invalid response format from Hugging Face`); on success the parsed
object is returned untouched. -/
def hfNormalize (text : String) : Except GenError JVal :=
  match jsonParse (String.mk (hfCleanup text)) with
  | none => .error .parseFail
  | some parsed =>
    if validShape parsed then .ok parsed
    else .error (.badShape "Invalid response format from Hugging Face")

/-- Normalization tail of `generateWithGoogle`: identical except that the
cleanup performs no brace-extraction and the shape error names Gemini. -/
def googleNormalize (text : String) : Except GenError JVal :=
  match jsonParse (String.mk (googleCleanup text)) with
  | none => .error .parseFail
  | some parsed =>
    if validShape parsed then .ok parsed
    else .error (.badShape "Invalid response format from Gemini")

/-- Substring occurrence test, modelling `String.prototype.includes`. -/
def containsSub (needle : List Char) : List Char → Bool
  | [] => needle.isEmpty
  | c :: t => needle.isPrefixOf (c :: t) || containsSub needle t

/-- The Express server's catch block around a provider generate function:
`if (error.message.includes('JSON')) throw new Error('Failed to parse AI
response. Please try again.'); throw new Error(`AI generation failed:
...`)`. -/
def expressWrap (e : GenError) : String :=
  if containsSub ("JSON".data) ((errMessage e).data) then
    "Failed to parse AI response. Please try again."
  else
    "AI generation failed: " ++ errMessage e

/-- The error message (if any) the Express Hugging Face path reports for
a given raw provider text, combining normalization with the catch
block's rewrapping. -/
def hfExpressMessage (text : String) : Option String :=
  match hfNormalize text with
  | .ok _ => none
  | .error e => some (expressWrap e)

/-! ## Provider dispatch (`generateSummaryAndSlides`) and the
`/api/summarize` route -/

/-- The two summarization providers. -/
inductive Provider where
  | hf
  | gemini
deriving Repr, DecidableEq

/-- The credential environment seen by the dispatcher. `none` models an
unset variable; JS truthiness additionally treats the empty string as
absent. -/
structure Env where
  hfKey : Option String
  geminiKey : Option String

/-- Truthiness of a credential (`if (env.HUGGINGFACE_API_KEY)`). -/
def keyTruthy : Option String → Bool
  | none => false
  | some s => !s.isEmpty

/-- `generateSummaryAndSlides`, with each provider's would-be outcome
passed explicitly and the list of providers actually called recorded:
try Hugging Face first when its key is truthy; on its failure fall back
to Gemini exactly once when that key is truthy, otherwise rethrow; with
no Hugging Face key use Gemini alone when available; with neither key
throw the configuration error without calling anyone. -/
def generateSummaryAndSlides (env : Env) (hfRes gemRes : Except GenError JVal) :
    Except GenError JVal × List Provider :=
  if keyTruthy env.hfKey then
    match hfRes with
    | .ok v => (.ok v, [.hf])
    | .error e =>
      if keyTruthy env.geminiKey then (gemRes, [.hf, .gemini])
      else (.error e, [.hf])
  else if keyTruthy env.geminiKey then (gemRes, [.gemini])
  else (.error .config, [])

/-- The 400 message for a missing/empty transcript. -/
def requiredMsg : String := "Transcript is required"

/-- The 400 message for a short transcript. -/
def tooShortMsg : String := "Transcript is too short. Please provide at least 50 characters."

/-- Outcome of the `/api/summarize` route: HTTP status, body (the deck or
the error message), and the providers called. -/
structure RouteOut where
  status : Nat
  body : Except String JVal
  calls : List Provider
deriving Repr

/-- The `/api/summarize` handler: reject a missing, non-string, or
trim-empty transcript with 400 `Transcript is required`; reject a raw
length under 50 with 400 `Transcript is too short…`; otherwise run
`generateSummaryAndSlides` and answer 200 with its deck or 500 with the
thrown error's message.  (String length counts characters, matching the
source's `transcript.length` on the claims' inputs.) -/
def summarizeRoute (transcriptField : Option JVal) (env : Env)
    (hfRes gemRes : Except GenError JVal) : RouteOut :=
  match transcriptField with
  | some (.str s) =>
    if (jsTrim s.data).isEmpty then ⟨400, .error requiredMsg, []⟩
    else if s.length < 50 then ⟨400, .error tooShortMsg, []⟩
    else
      match generateSummaryAndSlides env hfRes gemRes with
      | (.ok v, calls) => ⟨200, .ok v, calls⟩
      | (.error e, calls) => ⟨500, .error (errMessage e), calls⟩
  | _ => ⟨400, .error requiredMsg, []⟩

/-! ## ASR transcription with 503 retry (`transcribeWithHuggingFace`) -/

/-- One HTTP response from the ASR endpoint: status, the
`retry-after` header as `headers.get` returns it (`none` when absent),
the body parsed as JSON (`none` when not JSON), and the raw body text. -/
structure AsrResponse where
  status : Nat
  retryAfter : Option String
  bodyJson : Option JVal
  bodyText : String

/-- Model of JS `ToNumber` on strings, restricted to the values the
retry path meets: whitespace-only coerces to `0`, decimal naturals to
their value, anything else (such as an HTTP-date) to `NaN` (`none`). -/
def jsToNumber (s : String) : Option Nat :=
  let t := jsTrim s.data
  if t.isEmpty then some 0
  else if t.all Char.isDigit then
    some (t.foldl (fun a c => a * 10 + digitVal c) 0)
  else none

/-- The wait computed by `(headers.get('retry-after') || 10) * 1000` in
milliseconds: absent or empty header gives the 10-second default;
otherwise the header string is numerically coerced and scaled (`none`
models a `NaN` product). -/
def delayMs : Option String → Option Nat
  | none => some (10 * 1000)
  | some s => if s.isEmpty then some (10 * 1000) else (jsToNumber s).map (· * 1000)

/-- The wait `setTimeout` actually performs: a `NaN` delay fires
immediately. -/
def effDelay : Option Nat → Nat
  | none => 0
  | some d => d

mutual

/-- String coercion `Array.prototype.join` applies to an element:
`null` joins as the empty string, nested arrays join with commas,
objects display as `[object Object]`. -/
def jsJoinElem : JVal → String
  | .null => ""
  | .bool b => if b then "true" else "false"
  | .num n => toString n
  | .str s => s
  | .arr xs => jsJoinList xs
  | .obj _ => "[object Object]"

/-- Comma-joined coercion of a list of elements. -/
def jsJoinList : List JVal → String
  | [] => ""
  | [x] => jsJoinElem x
  | x :: xs => jsJoinElem x ++ "," ++ jsJoinList xs

end

mutual

/-- Model of `JSON.stringify` (string contents emitted unescaped, which
is exact on the texts the claims touch). -/
def jsonStringify : JVal → String
  | .null => "null"
  | .bool b => if b then "true" else "false"
  | .num n => toString n
  | .str s => "\"" ++ s ++ "\""
  | .arr xs => "[" ++ stringifyList xs ++ "]"
  | .obj fs => "\x7b" ++ stringifyFields fs ++ "\x7d"

/-- Stringify array elements. -/
def stringifyList : List JVal → String
  | [] => ""
  | [x] => jsonStringify x
  | x :: xs => jsonStringify x ++ "," ++ stringifyList xs

/-- Stringify object members. -/
def stringifyFields : List (String × JVal) → String
  | [] => ""
  | [(k, v)] => "\"" ++ k ++ "\":" ++ jsonStringify v
  | (k, v) :: fs => "\"" ++ k ++ "\":" ++ jsonStringify v ++ "," ++ stringifyFields fs

end

/-- The `chunk.text || chunk` coercion inside the chunks branch. -/
def chunkText (c : JVal) : JVal :=
  match c.getField "text" with
  | some t => if jsTruthy t then t else c
  | none => c

/-- The chunks branch and the final unexpected-format error of the ASR
response dispatch. -/
def extractAsrChunks (d : JVal) : Except String JVal :=
  match d.getField "chunks" with
  | some (.arr cs) =>
    .ok (.str (String.intercalate " " (cs.map (fun c => jsJoinElem (chunkText c)))))
  | _ => .error ("Unexpected response format from Hugging Face: " ++ jsonStringify d)

/-- The ASR success-body dispatch: a plain string is returned as is; a
truthy `data.text` is returned; else a non-empty array whose head has a
truthy `.text` yields that; else an array-valued `data.chunks` joins the
chunk texts with spaces; anything else throws. -/
def extractAsr (d : JVal) : Except String JVal :=
  match d with
  | .str s => .ok (.str s)
  | _ =>
    if jsTruthyOpt (d.getField "text") then .ok ((d.getField "text").getD .null)
    else
      match d with
      | .arr (e :: rest) =>
        if jsTruthy e && jsTruthyOpt (e.getField "text") then
          .ok ((e.getField "text").getD .null)
        else extractAsrChunks (.arr (e :: rest))
      | _ => extractAsrChunks d

/-- Handling of the first non-503 response: a 2xx body goes through the
format dispatch (a non-JSON body rejects), anything else throws the
`Hugging Face API error` with the body text. -/
def handleNon503 (r : AsrResponse) : Except String JVal :=
  if 200 ≤ r.status && r.status < 300 then
    match r.bodyJson with
    | some d => extractAsr d
    | none => .error "response body is not valid JSON"
  else .error ("Hugging Face API error: " ++ r.bodyText)

/-- `transcribeWithHuggingFace`'s retry recursion, fuel-indexed (the
source recursion carries no attempt counter, so partiality is modelled
by fuel): attempt `i` re-issues the identical request while the status
is 503, recording the effective wait of each retry; the first non-503
response decides the outcome. -/
def transcribeLoop (resp : Nat → AsrResponse) : Nat → Nat → Option (Except String JVal × List Nat)
  | 0, _ => none
  | fuel + 1, i =>
    let r := resp i
    if r.status = 503 then
      match transcribeLoop resp fuel (i + 1) with
      | none => none
      | some (out, ds) => some (out, effDelay (delayMs r.retryAfter) :: ds)
    else some (handleNon503 r, [])

/-- Entry point of the modelled transcription call. -/
def transcribeWithHuggingFace (resp : Nat → AsrResponse) (fuel : Nat) :
    Option (Except String JVal × List Nat) :=
  transcribeLoop resp fuel 0

/-! ## Side predicates used to state the commentary-recovery property -/

/-- The backtick character, written via its code point. -/
def btick : Char := Char.ofNat 96

/-- A character list free of both brace characters. -/
def braceFree (l : List Char) : Bool :=
  l.all (fun c => c ≠ lbrace && c ≠ rbrace)

/-- The list begins with a character that is neither trimmable
whitespace nor a backtick (so trimming keeps it and no fence-marker
prefix matches). -/
def headSolid (l : List Char) : Bool :=
  match l.head? with
  | some c => !isTrimWs c && c ≠ btick
  | none => false

/-- The list's last character, if any, is not trimmable whitespace. -/
def lastNonWs (l : List Char) : Bool :=
  match l.getLast? with
  | some c => !isTrimWs c
  | none => true

/-! ## Theorems -/

/-- C1: provider dispatch for summarization — with the Hugging Face
credential present that provider is attempted first and its success is
returned; on its failure Gemini is attempted exactly once as a fallback
when its credential is present and its result or error is returned,
otherwise the Hugging Face error propagates; with only the Gemini
credential only Gemini is called; with neither credential the pipeline
fails with the configuration error, no provider is called, and the
route answers 500. -/
theorem C1_provider_dispatch :
    (∀ (env : Env) (hfRes gemRes : Except GenError JVal) (v : JVal),
      keyTruthy env.hfKey = true → hfRes = .ok v →
      generateSummaryAndSlides env hfRes gemRes = (.ok v, [.hf])) ∧
    (∀ (env : Env) (hfRes gemRes : Except GenError JVal) (e : GenError),
      keyTruthy env.hfKey = true → keyTruthy env.geminiKey = true →
      hfRes = .error e →
      generateSummaryAndSlides env hfRes gemRes = (gemRes, [.hf, .gemini])) ∧
    (∀ (env : Env) (hfRes gemRes : Except GenError JVal) (e : GenError),
      keyTruthy env.hfKey = true → keyTruthy env.geminiKey = false →
      hfRes = .error e →
      generateSummaryAndSlides env hfRes gemRes = (.error e, [.hf])) ∧
    (∀ (env : Env) (hfRes gemRes : Except GenError JVal),
      keyTruthy env.hfKey = false → keyTruthy env.geminiKey = true →
      generateSummaryAndSlides env hfRes gemRes = (gemRes, [.gemini])) ∧
    (∀ (env : Env) (hfRes gemRes : Except GenError JVal),
      keyTruthy env.hfKey = false → keyTruthy env.geminiKey = false →
      generateSummaryAndSlides env hfRes gemRes = (.error .config, [])) ∧
    (∀ (s : String) (env : Env) (hfRes gemRes : Except GenError JVal),
      keyTruthy env.hfKey = false → keyTruthy env.geminiKey = false →
      (jsTrim s.data).isEmpty = false → 50 ≤ s.length →
      summarizeRoute (some (.str s)) env hfRes gemRes =
        ⟨500, .error (errMessage .config), []⟩) := by
  refine ⟨?_, ?_, ?_, ?_, ?_, ?_⟩
  · intro env hfRes gemRes v h1 h2
    subst h2
    simp [generateSummaryAndSlides, h1]
  · intro env hfRes gemRes e h1 h2 h3
    subst h3
    simp [generateSummaryAndSlides, h1, h2]
  · intro env hfRes gemRes e h1 h2 h3
    subst h3
    simp [generateSummaryAndSlides, h1, h2]
  · intro env hfRes gemRes h1 h2
    simp [generateSummaryAndSlides, h1, h2]
  · intro env hfRes gemRes h1 h2
    simp [generateSummaryAndSlides, h1, h2]
  · intro s env hfRes gemRes h1 h2 hne hlen
    have hnlt : ¬ s.length < 50 := by omega
    simp [summarizeRoute, hne, hnlt, generateSummaryAndSlides, h1, h2]

/-- Witness for C1: each dispatch branch observed at concrete
credentials and provider outcomes. -/
theorem C1_provider_dispatch_witness :
    generateSummaryAndSlides ⟨some "k", some "g"⟩ (.ok (.arr [])) (.ok .null) =
      (.ok (.arr []), [.hf]) ∧
    generateSummaryAndSlides ⟨some "k", some "g"⟩ (.error .parseFail) (.ok .null) =
      (.ok .null, [.hf, .gemini]) ∧
    generateSummaryAndSlides ⟨some "k", none⟩ (.error .parseFail) (.ok .null) =
      (.error .parseFail, [.hf]) ∧
    generateSummaryAndSlides ⟨none, some "g"⟩ (.error .parseFail) (.ok .null) =
      (.ok .null, [.gemini]) ∧
    generateSummaryAndSlides ⟨none, none⟩ (.ok .null) (.ok .null) =
      (.error .config, []) ∧
    summarizeRoute (some (.str (String.mk (List.replicate 60 'A')))) ⟨none, none⟩
        (.ok .null) (.ok .null) =
      ⟨500, .error (errMessage .config), []⟩ :=
  ⟨C1_provider_dispatch.1 _ _ _ _ rfl rfl,
   C1_provider_dispatch.2.1 _ _ _ GenError.parseFail rfl rfl rfl,
   C1_provider_dispatch.2.2.1 _ _ _ GenError.parseFail rfl rfl rfl,
   C1_provider_dispatch.2.2.2.1 _ _ _ rfl rfl,
   C1_provider_dispatch.2.2.2.2.1 _ _ _ rfl rfl,
   C1_provider_dispatch.2.2.2.2.2 _ _ _ _ rfl rfl rfl (by decide)⟩

/-- C5: every transcript string shorter than 50 characters is answered
with HTTP 400, one of the two human-readable validation messages, and
no provider is called. -/
theorem C5_short_transcript_rejected :
    ∀ (s : String) (env : Env) (hfRes gemRes : Except GenError JVal),
      s.length < 50 →
      (summarizeRoute (some (.str s)) env hfRes gemRes).status = 400 ∧
      (summarizeRoute (some (.str s)) env hfRes gemRes).calls = [] ∧
      ((summarizeRoute (some (.str s)) env hfRes gemRes).body = .error requiredMsg ∨
       (summarizeRoute (some (.str s)) env hfRes gemRes).body = .error tooShortMsg) := by
  intro s env hfRes gemRes h
  by_cases he : (jsTrim s.data).isEmpty
  · simp [summarizeRoute, he]
  · simp [summarizeRoute, he, h]

/-- Witness for C5: the five-character transcript `short` is rejected
with 400 and no provider call. -/
theorem C5_short_transcript_rejected_witness :
    ("short" : String).length < 50 ∧
    (summarizeRoute (some (.str "short")) ⟨some "k", some "g"⟩ (.ok .null)
        (.ok .null)).status = 400 ∧
    (summarizeRoute (some (.str "short")) ⟨some "k", some "g"⟩ (.ok .null)
        (.ok .null)).calls = [] :=
  ⟨by decide,
   (C5_short_transcript_rejected "short" ⟨some "k", some "g"⟩ (.ok .null) (.ok .null)
      (by decide)).1,
   (C5_short_transcript_rejected "short" ⟨some "k", some "g"⟩ (.ok .null) (.ok .null)
      (by decide)).2.1⟩

/-- C8: the emptiness check runs on the trimmed transcript while the
50-character minimum runs on the raw string — an all-whitespace
transcript is rejected as `Transcript is required` whatever its raw
length, and a raw string of at least 50 characters whose trim is
non-empty passes validation and (with the Hugging Face credential
configured) triggers a provider call, Hugging Face first. -/
theorem C8_trim_vs_raw_length :
    (∀ (s : String) (env : Env) (hfRes gemRes : Except GenError JVal),
      (jsTrim s.data).isEmpty = true →
      summarizeRoute (some (.str s)) env hfRes gemRes =
        ⟨400, .error requiredMsg, []⟩) ∧
    (∀ (s : String) (env : Env) (hfRes gemRes : Except GenError JVal),
      50 ≤ s.length → (jsTrim s.data).isEmpty = false →
      keyTruthy env.hfKey = true →
      (summarizeRoute (some (.str s)) env hfRes gemRes).calls.head? = some .hf ∧
      (summarizeRoute (some (.str s)) env hfRes gemRes).calls ≠ []) := by
  constructor
  · intro s env hfRes gemRes he
    simp [summarizeRoute, he]
  · intro s env hfRes gemRes hlen hne hk
    have hnlt : ¬ s.length < 50 := by omega
    cases hfRes with
    | ok v => simp [summarizeRoute, hne, hnlt, generateSummaryAndSlides, hk]
    | error e =>
      by_cases hg : keyTruthy env.geminiKey
      · cases gemRes with
        | ok w => simp [summarizeRoute, hne, hnlt, generateSummaryAndSlides, hk, hg]
        | error e2 => simp [summarizeRoute, hne, hnlt, generateSummaryAndSlides, hk, hg]
      · simp [summarizeRoute, hne, hnlt, generateSummaryAndSlides, hk, hg]

/-- Witness for C8: a 60-character all-whitespace transcript is
rejected as required; a 50-character transcript that is 49 spaces and
one letter reaches the Hugging Face provider. -/
theorem C8_trim_vs_raw_length_witness :
    (jsTrim (String.mk (List.replicate 60 ' ')).data).isEmpty = true ∧
    summarizeRoute (some (.str (String.mk (List.replicate 60 ' ')))) ⟨some "k", none⟩
        (.ok .null) (.ok .null) = ⟨400, .error requiredMsg, []⟩ ∧
    50 ≤ (String.mk (List.replicate 49 ' ' ++ ['x'])).length ∧
    (summarizeRoute (some (.str (String.mk (List.replicate 49 ' ' ++ ['x']))))
        ⟨some "k", none⟩ (.ok .null) (.ok .null)).calls.head? = some .hf :=
  ⟨by decide,
   C8_trim_vs_raw_length.1 _ ⟨some "k", none⟩ (.ok .null) (.ok .null) (by decide),
   by decide,
   (C8_trim_vs_raw_length.2 _ ⟨some "k", none⟩ (.ok .null) (.ok .null) (by decide)
      (by decide) rfl).1⟩

/-- An `isArrOpt`-accepted field is literally an array value. -/
theorem isArrOpt_eq_true_iff (o : Option JVal) :
    isArrOpt o = true ↔ ∃ xs, o = some (.arr xs) := by
  cases o with
  | none => simp [isArrOpt]
  | some v => cases v <;> simp [isArrOpt]

/-- C4: the validation accepts a parsed value exactly when `summary` is
truthy and `slides` is array-typed (the source's extra truthiness test
on `slides` is redundant because arrays are truthy); normalization
succeeds if and only if the parsed value meets the predicate, and fails
with the shape error otherwise; an empty `slides` array passes and no
per-slide check is performed, so a slide missing `title` and `points`
passes. -/
theorem C4_shape_predicate :
    (∀ v : JVal,
      validShape v =
        (jsTruthyOpt (v.getField "summary") && isArrOpt (v.getField "slides"))) ∧
    (∀ (text : String) (v : JVal),
      jsonParse (String.mk (hfCleanup text)) = some v →
      ((hfNormalize text = .ok v) ↔ validShape v = true)) ∧
    (∀ (text : String) (v : JVal),
      jsonParse (String.mk (hfCleanup text)) = some v →
      validShape v = false →
      hfNormalize text = .error (.badShape "Invalid response format from Hugging Face")) ∧
    validShape (.obj [("summary", .str "s"), ("slides", .arr [])]) = true ∧
    validShape (.obj [("summary", .str "s"), ("slides", .arr [.obj []])]) = true := by
  refine ⟨?_, ?_, ?_, by decide, by decide⟩
  · intro v
    unfold validShape
    cases h : v.getField "slides" with
    | none => simp [jsTruthyOpt, isArrOpt]
    | some w => cases w <;> simp [jsTruthyOpt, isArrOpt, jsTruthy]
  · intro text v hp
    unfold hfNormalize
    rw [hp]
    cases h : validShape v <;> simp [h]
  · intro text v hp hv
    unfold hfNormalize
    rw [hp]
    simp [hv]

/-- Witness for C4: a well-shaped response with an empty `slides` array
succeeds unchanged; a response lacking `summary` fails with the shape
error. -/
theorem C4_shape_predicate_witness :
    jsonParse (String.mk (hfCleanup ("\x7b\"summary\":\"s\",\"slides\":[]\x7d"))) =
      some (.obj [("summary", .str "s"), ("slides", .arr [])]) ∧
    hfNormalize ("\x7b\"summary\":\"s\",\"slides\":[]\x7d") =
      .ok (.obj [("summary", .str "s"), ("slides", .arr [])]) ∧
    jsonParse (String.mk (hfCleanup ("\x7b\"slides\":[]\x7d"))) =
      some (.obj [("slides", .arr [])]) ∧
    hfNormalize ("\x7b\"slides\":[]\x7d") =
      .error (.badShape "Invalid response format from Hugging Face") :=
  ⟨rfl,
   (C4_shape_predicate.2.1 ("\x7b\"summary\":\"s\",\"slides\":[]\x7d")
      (.obj [("summary", .str "s"), ("slides", .arr [])]) rfl).mpr rfl,
   rfl,
   C4_shape_predicate.2.2.1 ("\x7b\"slides\":[]\x7d") (.obj [("slides", .arr [])])
     rfl rfl⟩

/-- C3: round-trip identity — whenever the cleaned text parses to a
value with a non-empty string `summary` and an array-typed `slides`,
normalization returns exactly that parsed value. -/
theorem C3_roundtrip_identity :
    ∀ (text : String) (v : JVal) (s : String),
      jsonParse (String.mk (hfCleanup text)) = some v →
      v.getField "summary" = some (.str s) → s.isEmpty = false →
      isArrOpt (v.getField "slides") = true →
      hfNormalize text = .ok v := by
  intro text v s hp hs hne harr
  obtain ⟨xs, hxs⟩ := (isArrOpt_eq_true_iff _).mp harr
  have hvalid : validShape v = true := by
    unfold validShape
    rw [hs, hxs]
    simp [jsTruthyOpt, jsTruthy, isArrOpt, hne]
  unfold hfNormalize
  rw [hp]
  simp [hvalid]

/-- Witness for C3: a fenced well-formed response round-trips to its
parsed object unchanged. -/
theorem C3_roundtrip_identity_witness :
    jsonParse (String.mk (hfCleanup
        ("```json\n\x7b\"summary\":\"ok\",\"slides\":[\x7b\"title\":\"T\",\"points\":[\"p\"]\x7d]\x7d\n```"))) =
      some (.obj [("summary", .str "ok"),
        ("slides", .arr [.obj [("title", .str "T"), ("points", .arr [.str "p"])]])]) ∧
    hfNormalize
        ("```json\n\x7b\"summary\":\"ok\",\"slides\":[\x7b\"title\":\"T\",\"points\":[\"p\"]\x7d]\x7d\n```") =
      .ok (.obj [("summary", .str "ok"),
        ("slides", .arr [.obj [("title", .str "T"), ("points", .arr [.str "p"])]])]) :=
  ⟨rfl,
   C3_roundtrip_identity _
     (.obj [("summary", .str "ok"),
       ("slides", .arr [.obj [("title", .str "T"), ("points", .arr [.str "p"])]])])
     "ok" rfl rfl rfl rfl⟩

/-- C9: the shape check tests only truthiness of `summary` — a
non-string truthy `summary` (here a non-zero number) passes validation
and is returned as the deck's summary, while an empty-string `summary`
is rejected with the invalid-shape error. -/
theorem C9_summary_truthiness_only :
    (∀ (text : String) (n : Int), n ≠ 0 →
      jsonParse (String.mk (hfCleanup text)) =
        some (.obj [("summary", .num n), ("slides", .arr [])]) →
      hfNormalize text = .ok (.obj [("summary", .num n), ("slides", .arr [])])) ∧
    (∀ (text : String) (v : JVal),
      jsonParse (String.mk (hfCleanup text)) = some v →
      v.getField "summary" = some (.str "") →
      hfNormalize text = .error (.badShape "Invalid response format from Hugging Face")) ∧
    jsTruthy (.num 42) = true ∧ jsTruthy (.str "") = false := by
  refine ⟨?_, ?_, by decide, by decide⟩
  · intro text n hn hp
    unfold hfNormalize
    rw [hp]
    have hvalid : validShape (.obj [("summary", .num n), ("slides", .arr [])]) = true := by
      simp [validShape, JVal.getField, lookupLast, jsTruthyOpt, jsTruthy, isArrOpt, hn]
    simp [hvalid]
  · intro text v hp hs
    unfold hfNormalize
    rw [hp]
    have h0 : jsTruthy (.str "") = false := by decide
    have hvalid : validShape v = false := by
      simp [validShape, jsTruthyOpt, hs, h0]
    simp [hvalid]

/-- Witness for C9: `summary: 42` is accepted and returned verbatim;
`summary: ""` is rejected with the shape error. -/
theorem C9_summary_truthiness_only_witness :
    jsonParse (String.mk (hfCleanup ("\x7b\"summary\":42,\"slides\":[]\x7d"))) =
      some (.obj [("summary", .num 42), ("slides", .arr [])]) ∧
    hfNormalize ("\x7b\"summary\":42,\"slides\":[]\x7d") =
      .ok (.obj [("summary", .num 42), ("slides", .arr [])]) ∧
    hfNormalize ("\x7b\"summary\":\"\",\"slides\":[\"x\"]\x7d") =
      .error (.badShape "Invalid response format from Hugging Face") :=
  ⟨rfl,
   C9_summary_truthiness_only.1 ("\x7b\"summary\":42,\"slides\":[]\x7d") 42
     (by decide) rfl,
   C9_summary_truthiness_only.2.1 ("\x7b\"summary\":\"\",\"slides\":[\"x\"]\x7d")
     (.obj [("summary", .str ""), ("slides", .arr [.str "x"])]) rfl rfl⟩

/-- C7 counterexample: a schema-shape mismatch (valid JSON without a
`summary`) is reported as `AI generation failed: Invalid response format
from Hugging Face`, not with the distinct parse message the claim
asserts for every format error. -/
theorem C7_counterexample :
    hfExpressMessage ("\x7b\"notasummary\":1\x7d") =
      some ("AI generation failed: Invalid response format from Hugging Face") ∧
    ("AI generation failed: Invalid response format from Hugging Face" : String) ≠
      "Failed to parse AI response. Please try again." :=
  ⟨rfl, by decide⟩

/-- C7 (amended): only a JSON parse failure is reported with
`Failed to parse AI response. Please try again.`; a schema-shape
mismatch is reported as `AI generation failed: Invalid response format
from Hugging Face`; both error kinds route into the same
provider-fallback path as transport errors. -/
theorem C7_error_message_mapping :
    (∀ text : String, jsonParse (String.mk (hfCleanup text)) = none →
      hfExpressMessage text = some ("Failed to parse AI response. Please try again.")) ∧
    (∀ (text : String) (v : JVal),
      jsonParse (String.mk (hfCleanup text)) = some v → validShape v = false →
      hfExpressMessage text =
        some ("AI generation failed: Invalid response format from Hugging Face")) ∧
    (∀ (env : Env) (gemRes : Except GenError JVal) (e : GenError),
      keyTruthy env.hfKey = true → keyTruthy env.geminiKey = true →
      generateSummaryAndSlides env (.error e) gemRes = (gemRes, [.hf, .gemini])) := by
  refine ⟨?_, ?_, ?_⟩
  · intro text hp
    unfold hfExpressMessage hfNormalize
    rw [hp]
    rfl
  · intro text v hp hv
    unfold hfExpressMessage hfNormalize
    rw [hp]
    simp only [hv, Bool.false_eq_true, if_false]
    rfl
  · intro env gemRes e h1 h2
    simp [generateSummaryAndSlides, h1, h2]

/-- Witness for C7: unparseable text gets the parse message; a shape
mismatch gets the generation-failed message; an erroring Hugging Face
attempt falls back to Gemini. -/
theorem C7_error_message_mapping_witness :
    jsonParse (String.mk (hfCleanup ("no json here at all"))) = none ∧
    hfExpressMessage ("no json here at all") =
      some ("Failed to parse AI response. Please try again.") ∧
    hfExpressMessage ("\x7b\"slides\":[]\x7d") =
      some ("AI generation failed: Invalid response format from Hugging Face") ∧
    generateSummaryAndSlides ⟨some "k", some "g"⟩ (.error .parseFail) (.ok .null) =
      (.ok .null, [.hf, .gemini]) :=
  ⟨rfl,
   C7_error_message_mapping.1 ("no json here at all") rfl,
   C7_error_message_mapping.2.1 ("\x7b\"slides\":[]\x7d") (.obj [("slides", .arr [])])
     rfl rfl,
   C7_error_message_mapping.2.2 ⟨some "k", some "g"⟩ (.ok .null) GenError.parseFail
     rfl rfl⟩

/-- C10 counterexample: a `retry-after` header that is present with the
empty-string value still gets the 10-second default (the `|| 10` guard
fires on any falsy value), whereas the claim predicts numeric coercion
(which would give `0 * 1000 = 0`) for every present header. -/
theorem C10_counterexample :
    (some "" : Option String) ≠ none ∧
    delayMs (some "") = some 10000 ∧
    jsToNumber "" = some 0 ∧
    (jsToNumber "").map (· * 1000) = some 0 ∧
    delayMs (some "") ≠ (jsToNumber "").map (· * 1000) := by
  refine ⟨by decide, by decide, by decide, by decide, by decide⟩

/-- C10 (amended): the 10-second default applies when the header is
absent or its value is the empty (falsy) string; a present non-empty
value is numerically coerced and multiplied by 1000, so a present
non-empty non-numeric value yields a `NaN` delay and the retry proceeds
with no effective wait. -/
theorem C10_retry_after_coercion :
    delayMs none = some 10000 ∧
    delayMs (some "") = some 10000 ∧
    (∀ s : String, s.isEmpty = false → jsToNumber s = none →
      delayMs (some s) = none ∧ effDelay (delayMs (some s)) = 0) ∧
    (∀ (s : String) (n : Nat), s.isEmpty = false → jsToNumber s = some n →
      delayMs (some s) = some (n * 1000)) := by
  refine ⟨by decide, by decide, ?_, ?_⟩
  · intro s hne hnan
    have h : delayMs (some s) = none := by simp [delayMs, hne, hnan]
    exact ⟨h, by rw [h]; rfl⟩
  · intro s n hne hv
    simp [delayMs, hne, hv]

/-- Witness for C10: an HTTP-date `retry-after` value coerces to `NaN`
and waits nothing; the numeric value `2` waits 2000 milliseconds. -/
theorem C10_retry_after_coercion_witness :
    ("Wed, 21 Oct 2015 07:28:00 GMT" : String).isEmpty = false ∧
    jsToNumber ("Wed, 21 Oct 2015 07:28:00 GMT") = none ∧
    effDelay (delayMs (some "Wed, 21 Oct 2015 07:28:00 GMT")) = 0 ∧
    jsToNumber ("2") = some 2 ∧
    delayMs (some "2") = some 2000 :=
  ⟨by decide, by decide,
   (C10_retry_after_coercion.2.2.1 ("Wed, 21 Oct 2015 07:28:00 GMT")
      (by decide) (by decide)).2,
   by decide,
   C10_retry_after_coercion.2.2.2 ("2") 2 (by decide) (by decide)⟩

/-- Retry unrolling: with `n` consecutive 503s from offset `start` and a
non-503 at `start + n`, any fuel above `n` terminates the loop with the
outcome of that first non-503 response, after one computed wait per 503
received. -/
theorem transcribeLoop_of_leading_503 (resp : Nat → AsrResponse) :
    ∀ (n start fuel : Nat),
      (∀ i, i < n → (resp (start + i)).status = 503) →
      (resp (start + n)).status ≠ 503 →
      n < fuel →
      transcribeLoop resp fuel start =
        some (handleNon503 (resp (start + n)),
          (List.range n).map (fun i => effDelay (delayMs (resp (start + i)).retryAfter))) := by
  intro n
  induction n with
  | zero =>
    intro start fuel h503 hstop hfuel
    obtain ⟨m, rfl⟩ : ∃ m, fuel = m + 1 := ⟨fuel - 1, by omega⟩
    have h0 : (resp start).status ≠ 503 := by simpa using hstop
    simp [transcribeLoop, h0]
  | succ n ih =>
    intro start fuel h503 hstop hfuel
    obtain ⟨m, rfl⟩ : ∃ m, fuel = m + 1 := ⟨fuel - 1, by omega⟩
    have h0 : (resp start).status = 503 := by
      have := h503 0 (by omega)
      simpa using this
    have hrec := ih (start + 1) m
      (fun i hi => by
        have := h503 (i + 1) (by omega)
        simpa [Nat.add_assoc, Nat.add_comm 1 i] using this)
      (by
        have : start + 1 + n = start + (n + 1) := by omega
        rw [this]
        exact hstop)
      (by omega)
    simp only [transcribeLoop, h0, if_pos rfl, hrec]
    have hmap : (List.range (n + 1)).map
        (fun i => effDelay (delayMs (resp (start + i)).retryAfter)) =
        effDelay (delayMs (resp start).retryAfter) ::
          (List.range n).map (fun i => effDelay (delayMs (resp (start + 1 + i)).retryAfter)) := by
      rw [List.range_succ_eq_map, List.map_cons, List.map_map]
      refine congrArg₂ _ (by simp) ?_
      refine List.map_congr_left ?_
      intro i _
      have : start + (i + 1) = start + 1 + i := by omega
      simp [Function.comp, this]
    rw [hmap]
    have harith : start + 1 + n = start + (n + 1) := by omega
    rw [if_pos trivial, harith]

/-- If every response is a 503, the loop never produces an outcome at
any fuel: the recursion has no attempt bound. -/
theorem transcribeLoop_none_of_all_503 (resp : Nat → AsrResponse)
    (h : ∀ i, (resp i).status = 503) :
    ∀ fuel start, transcribeLoop resp fuel start = none := by
  intro fuel
  induction fuel with
  | zero => intro start; rfl
  | succ m ih =>
    intro start
    simp [transcribeLoop, h start, ih (start + 1)]

/-- C6: on each 503 the caller waits the header-derived delay (10
seconds when the header is absent) and re-issues the identical request
once per 503; with finitely many leading 503s the call terminates with
the outcome of the first non-503 response, and with only 503s it never
terminates (no fuel suffices). -/
theorem C6_asr_retry :
    (∀ (resp : Nat → AsrResponse) (n fuel : Nat),
      (∀ i, i < n → (resp i).status = 503) →
      (resp n).status ≠ 503 →
      n < fuel →
      transcribeWithHuggingFace resp fuel =
        some (handleNon503 (resp n),
          (List.range n).map (fun i => effDelay (delayMs (resp i).retryAfter)))) ∧
    (∀ resp : Nat → AsrResponse, (∀ i, (resp i).status = 503) →
      ∀ fuel, transcribeWithHuggingFace resp fuel = none) ∧
    delayMs none = some (10 * 1000) := by
  refine ⟨?_, ?_, rfl⟩
  · intro resp n fuel h503 hstop hfuel
    have := transcribeLoop_of_leading_503 resp n 0 fuel
      (fun i hi => by simpa using h503 i hi)
      (by simpa using hstop)
      hfuel
    simpa [transcribeWithHuggingFace] using this
  · intro resp h fuel
    exact transcribeLoop_none_of_all_503 resp h fuel 0

/-- Witness for C6, following the spec's scenario: a 503 with
`retry-after: 2` then a 200 with `{text: "hello world"}` resolves to
`hello world` after a single 2-second wait. -/
theorem C6_asr_retry_witness :
    ((fun i => if i = 0 then AsrResponse.mk 503 (some "2") none "" else
        AsrResponse.mk 200 none (some (.obj [("text", .str "hello world")])) "") 0).status
      = 503 ∧
    ((fun i => if i = 0 then AsrResponse.mk 503 (some "2") none "" else
        AsrResponse.mk 200 none (some (.obj [("text", .str "hello world")])) "") 1).status
      = 200 ∧
    transcribeWithHuggingFace
        (fun i => if i = 0 then AsrResponse.mk 503 (some "2") none "" else
          AsrResponse.mk 200 none (some (.obj [("text", .str "hello world")])) "") 2 =
      some (.ok (.str "hello world"), [2000]) := by
  refine ⟨rfl, rfl, ?_⟩
  have h := C6_asr_retry.1
    (fun i => if i = 0 then AsrResponse.mk 503 (some "2") none "" else
      AsrResponse.mk 200 none (some (.obj [("text", .str "hello world")])) "")
    1 2
    (fun i hi => by
      have : i = 0 := by omega
      subst this
      rfl)
    (by decide)
    (by omega)
  rw [h]
  rfl

/-- `dropWhile` is the identity when the head (if any) is not
dropped. -/
theorem dropWhile_eq_self_of_head (p : Char → Bool) :
    ∀ l : List Char, (∀ c, l.head? = some c → p c = false) → l.dropWhile p = l
  | [], _ => rfl
  | c :: t, h => by simp [List.dropWhile, h c rfl]

/-- `trim` is the identity on a list whose first and last characters
are not trimmable whitespace. -/
theorem jsTrim_eq_self (l : List Char)
    (hhead : ∀ c, l.head? = some c → isTrimWs c = false)
    (hlast : ∀ c, l.getLast? = some c → isTrimWs c = false) :
    jsTrim l = l := by
  unfold jsTrim
  rw [dropWhile_eq_self_of_head _ l hhead]
  rw [dropWhile_eq_self_of_head _ l.reverse
    (fun c hc => hlast c (by rwa [List.head?_reverse] at hc))]
  exact List.reverse_reverse l

/-- A list does not prefix another whose head differs from its own. -/
theorem isPrefixOf_eq_false_of_head_ne (m l : List Char) (a b : Char)
    (hm : m.head? = some a) (hl : l.head? = some b) (hne : a ≠ b) :
    m.isPrefixOf l = false := by
  cases m with
  | nil => simp at hm
  | cons x xs =>
    cases l with
    | nil => simp at hl
    | cons y ys =>
      have hxa : x = a := by simpa using hm
      have hyb : y = b := by simpa using hl
      subst hxa hyb
      simp [List.isPrefixOf, hne]

/-- Fence stripping is the identity on a text whose first character is
not a backtick. -/
theorem fenceStrip_eq_self_of_head (l : List Char) (c : Char)
    (hl : l.head? = some c) (hc : c ≠ btick) :
    fenceStrip l = l := by
  have h1 : markerJson.isPrefixOf l = false :=
    isPrefixOf_eq_false_of_head_ne _ _ btick c rfl hl (fun h => hc h.symm)
  have h2 : markerPlain.isPrefixOf l = false :=
    isPrefixOf_eq_false_of_head_ne _ _ btick c rfl hl (fun h => hc h.symm)
  simp [fenceStrip, h1, h2]

/-- `firstIdxOf` skips over a prefix that lacks the target. -/
theorem firstIdxOf_append_of_not_mem (t : Char) (p l : List Char) (h : t ∉ p) :
    firstIdxOf t (p ++ l) = (firstIdxOf t l).map (· + p.length) := by
  induction p with
  | nil =>
    cases h1 : firstIdxOf t l <;> simp [h1]
  | cons a as ih =>
    have ha : a ≠ t := fun he => h (by simp [he])
    have has : t ∉ as := fun he => h (by simp [he])
    have hae : (a = t) = False := by simp [ha]
    simp only [List.cons_append, firstIdxOf, hae, if_false, List.append_eq, ih has]
    cases h1 : firstIdxOf t l with
    | none => rfl
    | some i =>
      simp only [Option.map_some', List.length_cons, Option.some.injEq]
      omega

/-- `firstIdxOf` at a matching head. -/
theorem firstIdxOf_cons_self (t : Char) (l : List Char) :
    firstIdxOf t (t :: l) = some 0 := by
  simp [firstIdxOf]

/-- The greedy brace extraction of a brace-delimited block surrounded
by brace-free context returns exactly the block. -/
theorem braceExtract_sandwich (p mid q : List Char)
    (hp : braceFree p = true) (hq : braceFree q = true) :
    braceExtract (p ++ ((lbrace :: (mid ++ [rbrace])) ++ q)) =
      lbrace :: (mid ++ [rbrace]) := by
  have hpl : lbrace ∉ p := by
    intro hm
    have := List.all_eq_true.mp hp _ hm
    simp at this
  have hqr : rbrace ∉ q := by
    intro hm
    have := List.all_eq_true.mp hq _ hm
    simp at this
  have hfirst : firstIdxOf lbrace (p ++ ((lbrace :: (mid ++ [rbrace])) ++ q)) =
      some p.length := by
    rw [firstIdxOf_append_of_not_mem _ _ _ hpl]
    rw [show ((lbrace :: (mid ++ [rbrace])) ++ q) = lbrace :: ((mid ++ [rbrace]) ++ q) by
      simp]
    rw [firstIdxOf_cons_self]
    simp
  have hrev : (p ++ ((lbrace :: (mid ++ [rbrace])) ++ q)).reverse =
      q.reverse ++ (rbrace :: ((mid.reverse ++ [lbrace]) ++ p.reverse)) := by
    simp
  have hqrrev : rbrace ∉ q.reverse := by
    intro hm
    exact hqr (List.mem_reverse.mp hm)
  have hlen : (p ++ ((lbrace :: (mid ++ [rbrace])) ++ q)).length =
      p.length + mid.length + 2 + q.length := by
    simp [List.length_append, List.length_cons]
    omega
  have hlast : lastIdxOf rbrace (p ++ ((lbrace :: (mid ++ [rbrace])) ++ q)) =
      some (p.length + mid.length + 1) := by
    unfold lastIdxOf
    rw [hrev, firstIdxOf_append_of_not_mem _ _ _ hqrrev, firstIdxOf_cons_self]
    simp only [Option.map_some']
    rw [hlen, List.length_reverse]
    congr 1
    omega
  have hlt : p.length < p.length + mid.length + 1 := by omega
  unfold braceExtract
  rw [hfirst, hlast]
  simp only [hlt, if_true]
  rw [List.drop_left]
  have hcount : p.length + mid.length + 1 - p.length + 1 =
      (lbrace :: (mid ++ [rbrace])).length := by
    simp [List.length_cons, List.length_append]
    omega
  rw [hcount, List.take_left]

/-- C2 counterexample: a response with commentary before a
```` ```json ```` fence is recovered by the Hugging Face normalization
(brace extraction), but the Gemini normalization — which the claim also
covers — has no brace-extraction step and fails with a parse error
instead of recovering the enclosed object. -/
theorem C2_counterexample :
    hfNormalize ("Note: here it is\n```json\n\x7b\"summary\":\"ok\",\"slides\":[]\x7d\n```") =
      .ok (.obj [("summary", .str "ok"), ("slides", .arr [])]) ∧
    googleNormalize ("Note: here it is\n```json\n\x7b\"summary\":\"ok\",\"slides\":[]\x7d\n```") =
      .error .parseFail ∧
    (Except.error GenError.parseFail : Except GenError JVal) ≠
      .ok (.obj [("summary", .str "ok"), ("slides", .arr [])]) :=
  ⟨rfl, rfl, by simp⟩

/-- C2 (amended): fence stripping followed by greedy brace extraction
runs on the Hugging Face path only; there, any response made of
brace-free commentary (starting with a solid non-backtick character)
around a brace-delimited JSON object that parses and validates is
recovered exactly. The Gemini path applies no brace extraction: its
cleanup is the bare trim whenever the trimmed text does not begin with
a fence marker. -/
theorem C2_commentary_recovery_hf_only :
    (∀ (p mid q : List Char) (v : JVal),
      headSolid p = true → braceFree p = true →
      braceFree q = true → lastNonWs q = true →
      jsonParse (String.mk (lbrace :: (mid ++ [rbrace]))) = some v →
      validShape v = true →
      hfNormalize (String.mk (p ++ ((lbrace :: (mid ++ [rbrace])) ++ q))) = .ok v) ∧
    (∀ s : String, (∀ c, (jsTrim s.data).head? = some c → c ≠ btick) →
      googleCleanup s = jsTrim s.data) := by
  constructor
  · intro p mid q v hps hpf hqf hql hparse hvalid
    obtain ⟨c, t, rfl⟩ : ∃ c t, p = c :: t := by
      cases p with
      | nil => simp [headSolid] at hps
      | cons c t => exact ⟨c, t, rfl⟩
    have hcw : isTrimWs c = false ∧ c ≠ btick := by
      simpa [headSolid] using hps
    have hhead : ((c :: t) ++ ((lbrace :: (mid ++ [rbrace])) ++ q)).head? = some c := rfl
    have hlastL : ∀ d, ((c :: t) ++ ((lbrace :: (mid ++ [rbrace])) ++ q)).getLast? = some d →
        isTrimWs d = false := by
      intro d hd
      cases hqe : q with
      | nil =>
        subst hqe
        rw [List.append_nil] at hd
        rw [List.getLast?_append_of_ne_nil _ (by simp)] at hd
        rw [show lbrace :: (mid ++ [rbrace]) = (lbrace :: mid) ++ [rbrace] by simp] at hd
        rw [List.getLast?_concat] at hd
        have hdr : rbrace = d := Option.some.inj hd
        subst hdr
        rfl
      | cons q0 qt =>
        subst hqe
        rw [List.getLast?_append_of_ne_nil _ (by simp)] at hd
        rw [List.getLast?_append_of_ne_nil _ (by simp)] at hd
        have hq2 := hql
        unfold lastNonWs at hq2
        rw [hd] at hq2
        simpa using hq2
    have htrim : jsTrim ((c :: t) ++ ((lbrace :: (mid ++ [rbrace])) ++ q)) =
        (c :: t) ++ ((lbrace :: (mid ++ [rbrace])) ++ q) :=
      jsTrim_eq_self _
        (fun d hd => by
          rw [hhead] at hd
          cases hd
          exact hcw.1)
        hlastL
    have hfs : fenceStrip ((c :: t) ++ ((lbrace :: (mid ++ [rbrace])) ++ q)) =
        (c :: t) ++ ((lbrace :: (mid ++ [rbrace])) ++ q) :=
      fenceStrip_eq_self_of_head _ c hhead hcw.2
    have hbe := braceExtract_sandwich (c :: t) mid q hpf hqf
    unfold hfNormalize hfCleanup
    rw [show (String.mk ((c :: t) ++ ((lbrace :: (mid ++ [rbrace])) ++ q))).data =
        (c :: t) ++ ((lbrace :: (mid ++ [rbrace])) ++ q) from rfl]
    rw [htrim, hfs, hbe, hparse]
    simp [hvalid]
  · intro s hc
    cases hh : (jsTrim s.data).head? with
    | none =>
      have : jsTrim s.data = [] := by
        cases he : jsTrim s.data with
        | nil => rfl
        | cons a l => rw [he] at hh; simp at hh
      unfold googleCleanup
      rw [this]
      rfl
    | some c =>
      exact fenceStrip_eq_self_of_head _ c hh (hc c hh)

/-- Witness for C2 (amended): concrete commentary around a fenced
object is recovered on the Hugging Face path; a concrete non-fenced
text is left to the bare trim on the Gemini path. -/
theorem C2_commentary_recovery_hf_only_witness :
    hfNormalize (String.mk (("Note:\n```json\n").data ++
        ((lbrace :: (("\"summary\":\"ok\",\"slides\":[]").data ++ [rbrace])) ++
          ("\n```").data))) =
      .ok (.obj [("summary", .str "ok"), ("slides", .arr [])]) ∧
    googleCleanup ("hello \x7bworld\x7d ") = jsTrim ("hello \x7bworld\x7d ").data :=
  ⟨C2_commentary_recovery_hf_only.1 (("Note:\n```json\n").data)
      (("\"summary\":\"ok\",\"slides\":[]").data) (("\n```").data)
      (.obj [("summary", .str "ok"), ("slides", .arr [])])
      (by decide) (by decide) (by decide) (by decide) rfl rfl,
   C2_commentary_recovery_hf_only.2 ("hello \x7bworld\x7d ")
     (fun c hc => by
       have he : (jsTrim ("hello \x7bworld\x7d ").data).head? = some 'h' := rfl
       rw [he] at hc
       cases hc
       decide)⟩

end MeetingSummarizer
